import Mathlib

/-
  Verification development for the Falling Fury repository.

  Shallow embedding conventions:
  * C++ `float` quantities are modelled as `Rat`; every float value that the
    verified claims touch is a small dyadic rational, on which binary
    floating-point arithmetic is exact.
  * `unsigned` is modelled as `Nat`, with an explicit `% 2 ^ 32` wherever the
    source performs arithmetic that can wrap (the `+=` in
    `ScoreManager::addPoints`).  `int` is modelled as `Int`.
  * `static_cast<int>(float)` is C truncation toward zero, see `floatToInt`.
  * Fallible operations return `Option`.
-/

namespace FallingFury

/-- C truncation toward zero, the semantics of `static_cast<int>(float)`:
the floor for non-negative values, the ceiling for negative ones. -/
def floatToInt (q : Rat) : Int := if 0 ≤ q then ⌊q⌋ else ⌈q⌉

/-- The semantics of `static_cast<sf::Uint8>(float)` on values in `[0, 256)`,
the only range at which the sources apply it (outside that range the cast
would be undefined behaviour).  Truncation toward zero, clamped at 0. -/
def u8ofFloat (q : Rat) : Nat := (floatToInt q).toNat

namespace ScoreManager

-- ## ScoreManager (src/include/managers/ScoreManager.h)

/-- Embeds `struct ScoreEntry`: name, score (unsigned), date.
`operator<` compares `score > other.score` (descending); it is referenced
through `sortDesc` below. -/
structure ScoreEntry where
  playerName : String
  score : Nat
  date : String
deriving Repr, DecidableEq

/-- `MAX_LEADERBOARD_ENTRIES` -/
def MAX_LEADERBOARD_ENTRIES : Nat := 10

/-- `BASE_MULTIPLIER = 1.0f` -/
def BASE_MULTIPLIER : Rat := 1

/-- `MULTIPLIER_INCREMENT = 0.5f` -/
def MULTIPLIER_INCREMENT : Rat := 1 / 2

/-- `COMBO_THRESHOLD = 3` -/
def COMBO_THRESHOLD : Nat := 3

/-- The modulus of C++ `unsigned` arithmetic. -/
def UINT_MOD : Int := 2 ^ 32

/-- The mutable score state of `class ScoreManager`:
`mCurrentScore` (unsigned), `mComboCount` (unsigned),
`mComboMultiplier` (float).  The persisted high score and the leaderboard
vector are independent of the combo machine and are modelled separately. -/
structure State where
  mCurrentScore : Nat
  mComboCount : Nat
  mComboMultiplier : Rat
deriving Repr, DecidableEq

/-- The private constructor: score 0, combo 0, multiplier `BASE_MULTIPLIER`
(the file loads touch only the high score and leaderboard). -/
def init : State := ⟨0, 0, BASE_MULTIPLIER⟩

/-- `ScoreManager::addPoints(int basePoints)`:
`mComboCount++`; if `mComboCount >= COMBO_THRESHOLD` then
`mComboMultiplier = BASE_MULTIPLIER + (mComboCount - COMBO_THRESHOLD) * MULTIPLIER_INCREMENT`;
`pointsToAdd = static_cast<int>(basePoints * mComboMultiplier)`;
`mCurrentScore += pointsToAdd` (unsigned wrap-around addition). -/
def addPoints (basePoints : Int) (s : State) : State :=
  let combo := s.mComboCount + 1
  let mult :=
    if COMBO_THRESHOLD ≤ combo then
      BASE_MULTIPLIER + ((combo - COMBO_THRESHOLD : Nat) : Rat) * MULTIPLIER_INCREMENT
    else
      s.mComboMultiplier
  let pointsToAdd : Int := floatToInt ((basePoints : Rat) * mult)
  { mCurrentScore := (((s.mCurrentScore : Int) + pointsToAdd) % UINT_MOD).toNat
    mComboCount := combo
    mComboMultiplier := mult }

/-- `ScoreManager::breakCombo()`: combo to 0, multiplier to base. -/
def breakCombo (s : State) : State :=
  { s with mComboCount := 0, mComboMultiplier := BASE_MULTIPLIER }

/-- `ScoreManager::resetScore()`: score, combo and multiplier to initial. -/
def resetScore (_s : State) : State :=
  { mCurrentScore := 0, mComboCount := 0, mComboMultiplier := BASE_MULTIPLIER }

/-- The public mutating operations of the combo machine. -/
inductive Op where
  | addPoints (basePoints : Int)
  | breakCombo
  | resetScore
deriving Repr, DecidableEq

/-- One operation applied to the state. -/
def step (s : State) : Op → State
  | Op.addPoints bp => addPoints bp s
  | Op.breakCombo => breakCombo s
  | Op.resetScore => resetScore s

/-- A sequence of operations applied in order. -/
def run (s : State) (ops : List Op) : State := ops.foldl step s

/-- A state reachable from the initial state by the public operations. -/
def Reachable (s : State) : Prop := ∃ ops : List Op, run init ops = s

/-- The multiplier determined by a combo count: `BASE_MULTIPLIER` below the
threshold, `BASE_MULTIPLIER + (k - COMBO_THRESHOLD) * MULTIPLIER_INCREMENT`
at or above it.  This is the closed form the spec states. -/
def multOf (k : Nat) : Rat :=
  if COMBO_THRESHOLD ≤ k then
    BASE_MULTIPLIER + ((k - COMBO_THRESHOLD : Nat) : Rat) * MULTIPLIER_INCREMENT
  else
    BASE_MULTIPLIER

/-- A hit streak: `addPoints` folded over a list of base point values. -/
def streak (bps : List Int) (s : State) : State :=
  bps.foldl (fun t b => addPoints b t) s

/-- `ScoreManager::addToLeaderboard` sorts with `std::sort` and the
descending `ScoreEntry::operator<`.  `insertDesc` places an entry after all
entries of greater-or-equal score: this is insertion into a descending list
keeping ties in their existing order, which is the behaviour of the
insertion sort that libstdc++ `std::sort` runs on the ranges of fewer than
16 elements that occur here (the board never exceeds 11 elements). -/
def insertDesc (e : ScoreEntry) : List ScoreEntry → List ScoreEntry
  | [] => [e]
  | b :: t => if b.score < e.score then e :: b :: t else b :: insertDesc e t

/-- The sort performed on the leaderboard vector: descending by score,
ties kept in their order in the input list. -/
def sortDesc (l : List ScoreEntry) : List ScoreEntry :=
  l.foldl (fun acc e => insertDesc e acc) []

/-- `ScoreManager::addToLeaderboard`: `emplace_back` the new entry, sort the
vector descending by score, and resize to `MAX_LEADERBOARD_ENTRIES` when the
size exceeds it (`resize` to a smaller size keeps the first entries, so it
is `List.take`; when the size is within the bound `take` changes nothing,
matching the guarded `resize`).  The file write is I/O and not modelled. -/
def addToLeaderboard (board : List ScoreEntry) (e : ScoreEntry) : List ScoreEntry :=
  (sortDesc (board ++ [e])).take MAX_LEADERBOARD_ENTRIES

/-- Sorted descending by score. -/
def SortedDesc (l : List ScoreEntry) : Prop :=
  List.Pairwise (fun a b => b.score ≤ a.score) l

end ScoreManager

namespace ObjectPool

-- ## ObjectPool<T> (src/include/systems/ObjectPool.h)

/-- The state of `ObjectPool<T>`.  Pooled objects are identified by the
natural number that indexes their creation; `mPool` lists every object the
pool owns in creation order, `mAvailable` and `mInUse` are the two borrow
lists of `T*` (`std::vector<T*>`).  The factory and reset callbacks act on
object contents, which no claim observes, so only identities are kept. -/
structure Pool where
  mPool : List Nat
  mAvailable : List Nat
  mInUse : List Nat
  mAllowGrowth : Bool
deriving Repr, DecidableEq

/-- The constructor: pre-allocate `poolSize` objects, each pushed to
`mAvailable` and `mPool` in creation order. -/
def mkPool (poolSize : Nat) (allowGrowth : Bool) : Pool :=
  { mPool := List.range poolSize
    mAvailable := List.range poolSize
    mInUse := []
    mAllowGrowth := allowGrowth }

/-- `ObjectPool::acquire()`: if `mAvailable` is empty, either grow (allocate
a fresh object, pushed to `mPool` and `mInUse`) or return `nullptr`
(`none`); otherwise take `mAvailable.back()`, `pop_back` it and push it to
`mInUse`.  The fresh identity of a grown object is `mPool.length`, which is
unused in every reachable pool. -/
def acquire (p : Pool) : Option Nat × Pool :=
  match p.mAvailable.getLast? with
  | none =>
    if p.mAllowGrowth then
      let ptr := p.mPool.length
      (some ptr, { p with mPool := p.mPool ++ [ptr], mInUse := p.mInUse ++ [ptr] })
    else
      (none, p)
  | some obj =>
    (some obj, { p with mAvailable := p.mAvailable.dropLast, mInUse := p.mInUse ++ [obj] })

/-- `ObjectPool::release(T* obj)`: `std::find` the first occurrence of
`obj` in `mInUse`; if present, erase it and `push_back` to `mAvailable`
(the reset callback touches only object contents); otherwise log and leave
the pool unchanged. -/
def release (obj : Nat) (p : Pool) : Pool :=
  if obj ∈ p.mInUse then
    { p with mInUse := p.mInUse.erase obj, mAvailable := p.mAvailable ++ [obj] }
  else
    p

/-- `ObjectPool::releaseAll()`: push every in-use object back to
`mAvailable` in order and clear `mInUse`. -/
def releaseAll (p : Pool) : Pool :=
  { p with mAvailable := p.mAvailable ++ p.mInUse, mInUse := [] }

/-- The pool operations a caller can perform. -/
inductive PoolOp where
  | acquire
  | release (obj : Nat)
  | releaseAll
deriving Repr, DecidableEq

/-- One pool operation (the pointer returned by `acquire` is dropped). -/
def poolStep (p : Pool) : PoolOp → Pool
  | PoolOp.acquire => (acquire p).2
  | PoolOp.release obj => release obj p
  | PoolOp.releaseAll => releaseAll p

/-- A sequence of pool operations applied in order. -/
def runPool (p : Pool) (ops : List PoolOp) : Pool := ops.foldl poolStep p

end ObjectPool

namespace Entities

-- ## Enemy hierarchy (src/include/entities/Enemy.h)

/-- `enum class EnemyType`. -/
inductive EnemyType where
  | NORMAL
  | FAST
  | TANK
  | BONUS
deriving Repr, DecidableEq

/-- RGBA colour, each channel a `Uint8` value. -/
structure RGBA where
  r : Nat
  g : Nat
  b : Nat
  a : Nat
deriving Repr, DecidableEq

/-- The state of one `Enemy` (the hierarchy is a tagged variant: the four
subclasses add no data except `BonusEnemy::mLifetime`, carried here and
used only by the `BONUS` branch of `update`).  `mShape` contributes its
position, size, scale and fill colour. -/
structure Enemy where
  posX : Rat
  posY : Rat
  sizeW : Rat
  sizeH : Rat
  scaleX : Rat
  scaleY : Rat
  color : RGBA
  mType : EnemyType
  mSpeed : Rat
  mHealthValue : Int
  mPointValue : Int
  mActive : Bool
  mLifetime : Rat
deriving Repr, DecidableEq

/-- `Enemy::Enemy(type, position)` (each subclass constructor only forwards
to it): shape at `position`, size 100 x 100, scale 0.5, then the `switch`
on the type sets speed, health value, point value, fill colour and, for
three variants, a different scale.  `BonusEnemy` starts `mLifetime` at 0. -/
def Enemy.create (type : EnemyType) (px py : Rat) : Enemy :=
  let base : Enemy :=
    { posX := px, posY := py, sizeW := 100, sizeH := 100
      scaleX := 1 / 2, scaleY := 1 / 2
      color := ⟨0, 255, 0, 255⟩
      mType := type, mSpeed := 0, mHealthValue := 0, mPointValue := 0
      mActive := true, mLifetime := 0 }
  match type with
  | EnemyType.NORMAL =>
    { base with mSpeed := 200, mHealthValue := 1, mPointValue := 1
                color := ⟨0, 255, 0, 255⟩ }
  | EnemyType.FAST =>
    { base with mSpeed := 350, mHealthValue := 1, mPointValue := 2
                color := ⟨255, 0, 0, 255⟩, scaleX := 2 / 5, scaleY := 2 / 5 }
  | EnemyType.TANK =>
    { base with mSpeed := 120, mHealthValue := 2, mPointValue := 3
                color := ⟨0, 0, 255, 255⟩, scaleX := 7 / 10, scaleY := 7 / 10 }
  | EnemyType.BONUS =>
    { base with mSpeed := 250, mHealthValue := 0, mPointValue := 5
                color := ⟨255, 255, 0, 255⟩, scaleX := 9 / 20, scaleY := 9 / 20 }

/-- `EnemyFactory::createEnemy(type, position)`: dispatch on the type to the
matching subclass constructor (the `default` branch repeats `NORMAL`). -/
def EnemyFactory.createEnemy (type : EnemyType) (px py : Rat) : Enemy :=
  match type with
  | EnemyType.NORMAL => Enemy.create EnemyType.NORMAL px py
  | EnemyType.FAST => Enemy.create EnemyType.FAST px py
  | EnemyType.TANK => Enemy.create EnemyType.TANK px py
  | EnemyType.BONUS => Enemy.create EnemyType.BONUS px py

/-- `Enemy::update(deltaTime)` with its virtual overrides, a function of the
dynamic type.  `sine` abstracts the C library `sin`, whose exact values no
claim observes: `FastEnemy` adds `sin(y * 0.01) * 50 * dt` to x after the
base move, `BonusEnemy` advances `mLifetime`, pulses its scale with
`0.5 + 0.2 * sin(lifetime * 10)`, fades its alpha past 70 percent of the
5 second `MAX_LIFETIME`, and deactivates past `MAX_LIFETIME`.  (The float
products `5.0f * 0.7f` and `5.0f * 0.3f` are modelled by the exact 7/2 and
3/2.) -/
def Enemy.update (sine : Rat → Rat) (dt : Rat) (e : Enemy) : Enemy :=
  let b := { e with posY := e.posY + e.mSpeed * dt }
  match e.mType with
  | EnemyType.NORMAL => b
  | EnemyType.TANK => b
  | EnemyType.FAST =>
    let wiggle := sine (b.posY * (1 / 100)) * 50 * dt
    { b with posX := b.posX + wiggle }
  | EnemyType.BONUS =>
    let lifetime := b.mLifetime + dt
    let pulse := 1 / 2 + (1 / 5) * sine (lifetime * 10)
    let b1 := { b with mLifetime := lifetime, scaleX := pulse, scaleY := pulse }
    let b2 :=
      if (7 / 2 : Rat) < lifetime then
        { b1 with color :=
            { b1.color with a := u8ofFloat (255 * (1 - (lifetime - 7 / 2) / (3 / 2))) } }
      else b1
    if (5 : Rat) < lifetime then { b2 with mActive := false } else b2

/-- `Enemy::isOffScreen(screenHeight)`: `y > screenHeight`. -/
def Enemy.isOffScreen (screenHeight : Rat) (e : Enemy) : Bool :=
  decide (screenHeight < e.posY)

/-- `Enemy::setActive(active)`. -/
def Enemy.setActive (active : Bool) (e : Enemy) : Enemy :=
  { e with mActive := active }

/-- `Enemy::setPosition(pos)`. -/
def Enemy.setPosition (px py : Rat) (e : Enemy) : Enemy :=
  { e with posX := px, posY := py }

/-- The three numeric traits the spec fixes per variant:
(speed, health-cost-if-missed, point-value-if-hit). -/
def Enemy.traits (e : Enemy) : Rat × Int × Int :=
  (e.mSpeed, e.mHealthValue, e.mPointValue)

end Entities

namespace Particles

-- ## Particle (src/include/systems/ParticleSystem.h)

open Entities (RGBA)

/-- `struct Particle`: circle shape (position, radius, fill colour),
velocity, elapsed and maximum lifetime, start and end colour and size,
active flag.  (`shape.setOrigin(size, size)` always mirrors the radius and
is not carried separately.) -/
structure Particle where
  posX : Rat
  posY : Rat
  velX : Rat
  velY : Rat
  lifetime : Rat
  maxLifetime : Rat
  startColor : RGBA
  endColor : RGBA
  startSize : Rat
  endSize : Rat
  radius : Rat
  fillColor : RGBA
  active : Bool
deriving Repr, DecidableEq

/-- `Particle::update(deltaTime)`: return unchanged when inactive;
`lifetime += deltaTime`; when `lifetime >= maxLifetime` deactivate and
return; otherwise move by `velocity * deltaTime`, add gravity
`300 * deltaTime` to the y velocity, and from `t = lifetime / maxLifetime`
interpolate the radius and the fill colour, whose alpha is
`static_cast<Uint8>(255 * (1 - t))`. -/
def Particle.update (dt : Rat) (p : Particle) : Particle :=
  if p.active = false then p
  else
    let lifetime := p.lifetime + dt
    if p.maxLifetime ≤ lifetime then
      { p with lifetime := lifetime, active := false }
    else
      let t := lifetime / p.maxLifetime
      let size := p.startSize + (p.endSize - p.startSize) * t
      let cr := u8ofFloat ((p.startColor.r : Rat) +
        ((p.endColor.r : Rat) - (p.startColor.r : Rat)) * t)
      let cg := u8ofFloat ((p.startColor.g : Rat) +
        ((p.endColor.g : Rat) - (p.startColor.g : Rat)) * t)
      let cb := u8ofFloat ((p.startColor.b : Rat) +
        ((p.endColor.b : Rat) - (p.startColor.b : Rat)) * t)
      let ca := u8ofFloat (255 * (1 - t))
      { p with
        lifetime := lifetime
        posX := p.posX + p.velX * dt
        posY := p.posY + p.velY * dt
        velY := p.velY + 300 * dt
        radius := size
        fillColor := ⟨cr, cg, cb, ca⟩ }

/-- A freshly emitted concrete particle used by the C9 results: one second
of maximum lifetime, white fading to transparent white. -/
def sampleParticle : Particle :=
  { posX := 0, posY := 0, velX := 0, velY := 0
    lifetime := 0, maxLifetime := 1
    startColor := ⟨255, 255, 255, 255⟩, endColor := ⟨255, 255, 255, 0⟩
    startSize := 5, endSize := 0, radius := 5
    fillColor := ⟨255, 255, 255, 255⟩, active := true }

end Particles

namespace GameLoop

-- ## Game::updateEnemies / PlayingState (src/src/core/Game.cpp,
-- ## src/Game.cpp, src/include/core/PlayingState.h)

/-- The live enemies of the frame loop are plain `sf::RectangleShape`
values: position, size and scale (the fill colour plays no role in any
claim).  Every spawned enemy is a copy of the 100 x 100 template scaled by
0.5. -/
structure RectangleShape where
  posX : Rat
  posY : Rat
  sizeW : Rat
  sizeH : Rat
  scaleX : Rat
  scaleY : Rat
deriving Repr, DecidableEq

/-- `sf::RectangleShape::move(ox, oy)`. -/
def RectangleShape.move (ox oy : Rat) (e : RectangleShape) : RectangleShape :=
  { e with posX := e.posX + ox, posY := e.posY + oy }

/-- `getGlobalBounds().contains(point)`: the global bounds of an unrotated,
positively scaled rectangle at `pos` are
`[posX, posX + sizeW * scaleX) x [posY, posY + sizeH * scaleY)`;
`sf::Rect::contains` is half-open. -/
def RectangleShape.containsPoint (e : RectangleShape) (mx my : Rat) : Prop :=
  e.posX ≤ mx ∧ mx < e.posX + e.sizeW * e.scaleX ∧
    e.posY ≤ my ∧ my < e.posY + e.sizeH * e.scaleY

instance (e : RectangleShape) (mx my : Rat) : Decidable (e.containsPoint mx my) := by
  unfold RectangleShape.containsPoint
  infer_instance

/-- `mGravity = 200.f` (pixels per second). -/
def mGravity : Rat := 200

/-- The spawn template: a 100 x 100 green rectangle scaled by 0.5, placed
at the spawn position. -/
def spawnRect (px py : Rat) : RectangleShape :=
  { posX := px, posY := py, sizeW := 100, sizeH := 100
    scaleX := 1 / 2, scaleY := 1 / 2 }

/-- The miss sweep of `Game::updateEnemies` (src/src/core/Game.cpp lines
103 to 111): `for (i = 0; i < size; i++) { move(0, g * dt); if (y > H)
{ health--; erase(begin() + i); } }` with NO index decrement after the
erase.  When the enemy at `i` is erased, the following enemy shifts into
slot `i` and the `i++` skips it: it is neither moved nor tested this
frame.  Returns the surviving vector and the updated health. -/
def gameMissSweep (dt screenH : Rat) :
    List RectangleShape → Int → List RectangleShape × Int
  | [], health => ([], health)
  | e :: rest, health =>
    let e1 := e.move 0 (mGravity * dt)
    if screenH < e1.posY then
      match rest with
      | [] => ([], health - 1)
      | f :: rest2 =>
        let (s, h2) := gameMissSweep dt screenH rest2 (health - 1)
        (f :: s, h2)
    else
      let (s, h2) := gameMissSweep dt screenH rest health
      (e1 :: s, h2)

/-- The miss sweep of `PlayingState::updateEnemies` (PlayingState.h lines
71 to 86): the same loop WITH the `i--` after the erase, so every enemy is
moved and tested; each removal decrements health and sets the quit flag
once health reaches 0.  Returns the survivors, the health and the quit
flag. -/
def playingMissSweep (dt screenH : Rat) :
    List RectangleShape → Int → Bool → List RectangleShape × Int × Bool
  | [], health, quit => ([], health, quit)
  | e :: rest, health, quit =>
    let e1 := e.move 0 (mGravity * dt)
    if screenH < e1.posY then
      let h1 := health - 1
      let q1 := if h1 ≤ 0 then true else quit
      playingMissSweep dt screenH rest h1 q1
    else
      let (s, h2, q2) := playingMissSweep dt screenH rest health quit
      (e1 :: s, h2, q2)

/-- The state the click handler touches.  `mPoints` is unsigned and
`mHealth` is `int`; neither can wrap under single increments in any claim,
so `Nat` and `Int` are used directly.  The identical click loop appears in
`PlayingState::handleClick`, `Game::updateEnemies` (src/src/core/Game.cpp)
and `Game::updateEnemies` (src/Game.cpp). -/
structure PlayingState where
  mEnemies : List RectangleShape
  mPoints : Nat
  mHealth : Int
  mMouseHeld : Bool
deriving Repr, DecidableEq

/-- The inner loop of the click handlers:
`for (i = 0; i < size && !deleted; i++) if (bounds.contains(mouse))
{ deleted = true; erase(begin() + i); }` — erase the first enemy whose
bounds contain the mouse, if any.  Returns the vector with that enemy
erased, or `none` when no enemy is hit. -/
def clickLoop (mx my : Rat) : List RectangleShape → Option (List RectangleShape)
  | [] => none
  | e :: rest =>
    if e.containsPoint mx my then
      some rest
    else
      match clickLoop mx my rest with
      | some rest2 => some (e :: rest2)
      | none => none

/-- `PlayingState::handleClick`: when the left button is pressed and was
not held, set `mMouseHeld`, run the click loop, and on a hit erase that
enemy and do `mHealth++; mPoints++`.  When the button is not pressed,
clear `mMouseHeld`. -/
def handleClick (pressed : Bool) (mx my : Rat) (s : PlayingState) : PlayingState :=
  if pressed then
    if s.mMouseHeld then s
    else
      let s1 := { s with mMouseHeld := true }
      match clickLoop mx my s1.mEnemies with
      | some es =>
        { s1 with mEnemies := es, mHealth := s1.mHealth + 1, mPoints := s1.mPoints + 1 }
      | none => s1
  else
    { s with mMouseHeld := false }

/-- Two enemies that both cross the bottom edge in the same frame, used by
the C4 result: at `y = 900`, one frame of `dt = 1` moves them to
`y = 1100 > 1000`. -/
def enemyA : RectangleShape := spawnRect 0 900

/-- Second enemy of the C4 failing input. -/
def enemyB : RectangleShape := spawnRect 200 900

/-- The one-enemy, mouse-inside state used by the C3 results: an enemy
whose bounds are `[0, 50) x [0, 50)` and the pointer at `(10, 10)`. -/
def clickExState : PlayingState :=
  { mEnemies := [spawnRect 0 0], mPoints := 0, mHealth := 10, mMouseHeld := false }

end GameLoop

-- # Theorems

open ScoreManager ObjectPool Entities Particles GameLoop

-- ## ScoreManager combo machine

/-- `addPoints` keeps the multiplier determined by the combo count. -/
theorem addPoints_inv (s : State) (bp : Int)
    (h : s.mComboMultiplier = multOf s.mComboCount) :
    (addPoints bp s).mComboMultiplier = multOf (s.mComboCount + 1) := by
  by_cases hc : COMBO_THRESHOLD ≤ s.mComboCount + 1
  · simp [addPoints, multOf, hc]
  · have hlt : ¬ COMBO_THRESHOLD ≤ s.mComboCount :=
      fun hx => hc (le_trans hx (Nat.le_succ _))
    simp [addPoints, multOf, hc, hlt, h]

/-- Every operation keeps the multiplier determined by the combo count. -/
theorem step_inv (s : State) (op : Op)
    (h : s.mComboMultiplier = multOf s.mComboCount) :
    (step s op).mComboMultiplier = multOf (step s op).mComboCount := by
  cases op with
  | addPoints bp => exact addPoints_inv s bp h
  | breakCombo => rfl
  | resetScore => rfl

/-- Invariant propagation along any operation sequence. -/
theorem run_inv (ops : List Op) : ∀ s : State,
    s.mComboMultiplier = multOf s.mComboCount →
    (run s ops).mComboMultiplier = multOf (run s ops).mComboCount := by
  induction ops with
  | nil => intro s h; exact h
  | cons op rest ih =>
    intro s h
    simp only [run, List.foldl_cons]
    exact ih (step s op) (step_inv s op h)

/-- In every reachable state the multiplier is the one determined by the
combo count. -/
theorem multiplier_inv (s : State) (h : Reachable s) :
    s.mComboMultiplier = multOf s.mComboCount := by
  obtain ⟨ops, rfl⟩ := h
  exact run_inv ops init rfl

/-- A streak of `k` hits adds `k` to the combo count. -/
theorem streak_combo (bps : List Int) : ∀ t : State,
    (streak bps t).mComboCount = t.mComboCount + bps.length := by
  induction bps with
  | nil => intro t; simp [streak]
  | cons b rest ih =>
    intro t
    simp only [streak, List.foldl_cons] at ih ⊢
    rw [ih (addPoints b t)]
    simp [addPoints]
    omega

/-- A streak keeps the multiplier determined by the combo count. -/
theorem streak_inv (bps : List Int) : ∀ t : State,
    t.mComboMultiplier = multOf t.mComboCount →
    (streak bps t).mComboMultiplier = multOf (streak bps t).mComboCount := by
  induction bps with
  | nil => intro t h; exact h
  | cons b rest ih =>
    intro t h
    simp only [streak, List.foldl_cons] at ih ⊢
    refine ih (addPoints b t) ?_
    have := addPoints_inv t b h
    simpa [addPoints] using this

/-- Claim C2: along every sequence of `ScoreManager` operations from the
initial state, the multiplier is `1.0` while the combo count is below the
threshold and `1.0 + (comboCount - threshold) * increment` at or above it;
a hit streak of length `k >= threshold` (after any `breakCombo`) yields
combo count `k` and multiplier `1.0 + (k - threshold) * increment`; and
`breakCombo` resets combo count to 0 and multiplier to `1.0` from any
state. -/
theorem C2_combo_invariant :
    (∀ s : State, Reachable s →
      (s.mComboCount < COMBO_THRESHOLD → s.mComboMultiplier = 1) ∧
      (COMBO_THRESHOLD ≤ s.mComboCount →
        s.mComboMultiplier
          = 1 + ((s.mComboCount - COMBO_THRESHOLD : Nat) : Rat) * MULTIPLIER_INCREMENT)) ∧
    (∀ (s : State) (bps : List Int), COMBO_THRESHOLD ≤ bps.length →
      (streak bps (breakCombo s)).mComboCount = bps.length ∧
      (streak bps (breakCombo s)).mComboMultiplier
        = 1 + ((bps.length - COMBO_THRESHOLD : Nat) : Rat) * MULTIPLIER_INCREMENT) ∧
    (∀ s : State, (breakCombo s).mComboCount = 0 ∧ (breakCombo s).mComboMultiplier = 1) := by
  refine ⟨?_, ?_, fun s => ⟨rfl, rfl⟩⟩
  · intro s hs
    have h := multiplier_inv s hs
    constructor
    · intro hlt
      rw [h]
      simp [multOf, BASE_MULTIPLIER, Nat.not_le_of_lt hlt]
    · intro hge
      rw [h]
      simp [multOf, BASE_MULTIPLIER, hge]
  · intro s bps hk
    have hcombo : (streak bps (breakCombo s)).mComboCount = bps.length := by
      rw [streak_combo bps (breakCombo s)]
      simp [breakCombo]
    have hmult := streak_inv bps (breakCombo s) rfl
    refine ⟨hcombo, ?_⟩
    rw [hmult, hcombo]
    simp [multOf, BASE_MULTIPLIER, hk]

/-- Witness for C2 at the initial state and the streak `[2, 3, 5]`. -/
theorem C2_combo_invariant_witness :
    ((init.mComboCount < COMBO_THRESHOLD → init.mComboMultiplier = 1) ∧
     (COMBO_THRESHOLD ≤ init.mComboCount →
       init.mComboMultiplier
         = 1 + ((init.mComboCount - COMBO_THRESHOLD : Nat) : Rat) * MULTIPLIER_INCREMENT)) ∧
    ((streak [2, 3, 5] (breakCombo init)).mComboCount = ([2, 3, 5] : List Int).length ∧
     (streak [2, 3, 5] (breakCombo init)).mComboMultiplier
       = 1 + ((([2, 3, 5] : List Int).length - COMBO_THRESHOLD : Nat) : Rat) * MULTIPLIER_INCREMENT) ∧
    ((breakCombo init).mComboCount = 0 ∧ (breakCombo init).mComboMultiplier = 1) :=
  ⟨C2_combo_invariant.1 init ⟨[], rfl⟩,
   C2_combo_invariant.2.1 init [2, 3, 5] (by decide),
   C2_combo_invariant.2.2 init⟩

/-- `floatToInt` on non-negative values is the floor. -/
theorem floatToInt_of_nonneg {q : Rat} (h : 0 ≤ q) : floatToInt q = ⌊q⌋ := if_pos h

/-- The score field written by `addPoints`, in terms of the multiplier it
writes. -/
theorem addPoints_score_eq (s : State) (bp : Int) :
    (addPoints bp s).mCurrentScore
      = (((s.mCurrentScore : Int)
          + floatToInt ((bp : Rat) * (addPoints bp s).mComboMultiplier)) % UINT_MOD).toNat := rfl

/-- The multiplier field written by `addPoints`. -/
theorem addPoints_mult_eq (s : State) (bp : Int) :
    (addPoints bp s).mComboMultiplier
      = if COMBO_THRESHOLD ≤ s.mComboCount + 1 then
          BASE_MULTIPLIER
            + ((s.mComboCount + 1 - COMBO_THRESHOLD : Nat) : Rat) * MULTIPLIER_INCREMENT
        else s.mComboMultiplier := rfl

/-- Claim C1 counterexample: on the fourth consecutive `addPoints(1)` the
just-incremented combo count is 4, the multiplier is 1.5, and the score
moves from 3 to 4 — an increase of `trunc(1 * 1.5) = 1`, not
`round(1 * 1.5) = 2` as the claim states. -/
theorem C1_truncation_counterexample :
    (addPoints 1 (addPoints 1 (addPoints 1 init))).mCurrentScore = 3 ∧
    (addPoints 1 (addPoints 1 (addPoints 1 (addPoints 1 init)))).mComboCount = 4 ∧
    (addPoints 1 (addPoints 1 (addPoints 1 (addPoints 1 init)))).mComboMultiplier = 3 / 2 ∧
    (addPoints 1 (addPoints 1 (addPoints 1 (addPoints 1 init)))).mCurrentScore = 4 ∧
    round ((1 : Rat) * (3 / 2)) = 2 ∧ (4 : Nat) ≠ 3 + 2 := by
  have m1 : (addPoints 1 init).mComboMultiplier = 1 := rfl
  have s1 : (addPoints 1 init).mCurrentScore = 1 := by
    rw [addPoints_score_eq, m1]
    norm_num [floatToInt_of_nonneg, UINT_MOD, init, Int.toNat_ofNat]
  have m2 : (addPoints 1 (addPoints 1 init)).mComboMultiplier = 1 := rfl
  have s2 : (addPoints 1 (addPoints 1 init)).mCurrentScore = 2 := by
    rw [addPoints_score_eq, m2, s1]
    norm_num [floatToInt_of_nonneg, UINT_MOD, Int.toNat_ofNat]; decide
  have c2 : (addPoints 1 (addPoints 1 init)).mComboCount = 2 := rfl
  have m3 : (addPoints 1 (addPoints 1 (addPoints 1 init))).mComboMultiplier = 1 := by
    rw [addPoints_mult_eq, c2]
    norm_num [COMBO_THRESHOLD, BASE_MULTIPLIER, MULTIPLIER_INCREMENT]
  have s3 : (addPoints 1 (addPoints 1 (addPoints 1 init))).mCurrentScore = 3 := by
    rw [addPoints_score_eq, m3, s2]
    norm_num [floatToInt_of_nonneg, UINT_MOD, Int.toNat_ofNat]; decide
  have c3 : (addPoints 1 (addPoints 1 (addPoints 1 init))).mComboCount = 3 := rfl
  have m4 : (addPoints 1 (addPoints 1 (addPoints 1 (addPoints 1 init)))).mComboMultiplier
      = 3 / 2 := by
    rw [addPoints_mult_eq, c3]
    norm_num [COMBO_THRESHOLD, BASE_MULTIPLIER, MULTIPLIER_INCREMENT]
  have s4 : (addPoints 1 (addPoints 1 (addPoints 1 (addPoints 1 init)))).mCurrentScore = 4 := by
    rw [addPoints_score_eq, m4, s3]
    norm_num [floatToInt_of_nonneg, UINT_MOD, Int.toNat_ofNat]; decide
  refine ⟨s3, rfl, m4, s4, ?_, by norm_num⟩
  norm_num [round_eq]

/-- Claim C1 (amended): `addPoints(basePoints)` first increments the combo
count, recomputes the multiplier from the just-incremented count (no
off-by-one lag), and then increases the session score by the TRUNCATION
toward zero of `basePoints * multiplier` (under unsigned wrap-around),
not by its rounding. -/
theorem C1_addPoints_truncates (s : State) (bp : Int) (h : Reachable s) :
    (addPoints bp s).mComboCount = s.mComboCount + 1 ∧
    (addPoints bp s).mComboMultiplier = multOf (s.mComboCount + 1) ∧
    ((addPoints bp s).mCurrentScore : Int)
      = ((s.mCurrentScore : Int) + floatToInt ((bp : Rat) * multOf (s.mComboCount + 1))) % UINT_MOD := by
  have hinv := multiplier_inv s h
  have hm := addPoints_inv s bp hinv
  refine ⟨rfl, hm, ?_⟩
  have hs : (addPoints bp s).mCurrentScore
      = (((s.mCurrentScore : Int)
          + floatToInt ((bp : Rat) * (addPoints bp s).mComboMultiplier)) % UINT_MOD).toNat := rfl
  rw [hs, hm]
  exact Int.toNat_of_nonneg (Int.emod_nonneg _ (by norm_num [UINT_MOD]))

/-- Witness for the amended C1 at the initial state. -/
theorem C1_addPoints_truncates_witness :
    (addPoints 5 init).mComboCount = init.mComboCount + 1 ∧
    (addPoints 5 init).mComboMultiplier = multOf (init.mComboCount + 1) ∧
    ((addPoints 5 init).mCurrentScore : Int)
      = ((init.mCurrentScore : Int)
          + floatToInt ((5 : Rat) * multOf (init.mComboCount + 1))) % UINT_MOD :=
  C1_addPoints_truncates init 5 ⟨[], rfl⟩

-- ## Leaderboard

/-- Sorting a list with one appended entry inserts that entry into the
sorted rest. -/
theorem sortDesc_concat (l : List ScoreEntry) (e : ScoreEntry) :
    sortDesc (l ++ [e]) = insertDesc e (sortDesc l) := by
  simp [sortDesc, List.foldl_append]

/-- Taking `k` commutes with inserting into a `k`-truncated list. -/
theorem take_cons_take (n : Nat) (b : ScoreEntry) (t : List ScoreEntry) :
    List.take n (b :: List.take n t) = List.take n (b :: t) := by
  cases n with
  | zero => simp
  | succ m =>
    simp only [List.take_succ_cons, List.take_take]
    rw [Nat.min_eq_left (Nat.le_succ m)]

/-- Inserting into the first `k` entries and truncating again agrees with
inserting into the whole list and truncating. -/
theorem take_insertDesc (e : ScoreEntry) :
    ∀ (s : List ScoreEntry) (k : Nat),
      (insertDesc e (s.take k)).take k = (insertDesc e s).take k := by
  intro s
  induction s with
  | nil => intro k; simp
  | cons b t ih =>
    intro k
    cases k with
    | zero => simp
    | succ n =>
      simp only [List.take_succ_cons]
      by_cases hb : b.score < e.score
      · simp only [insertDesc, if_pos hb, List.take_succ_cons]
        rw [take_cons_take]
      · simp only [insertDesc, if_neg hb, List.take_succ_cons]
        rw [ih n]

/-- Members of `insertDesc e t` are `e` or members of `t`. -/
theorem mem_insertDesc (x e : ScoreEntry) :
    ∀ t : List ScoreEntry, x ∈ insertDesc e t → x = e ∨ x ∈ t := by
  intro t
  induction t with
  | nil =>
    intro hx
    simp [insertDesc] at hx
    exact Or.inl hx
  | cons b t ih =>
    intro hx
    by_cases hb : b.score < e.score
    · simp only [insertDesc, if_pos hb] at hx
      rcases List.mem_cons.mp hx with rfl | hx
      · exact Or.inl rfl
      · exact Or.inr hx
    · simp only [insertDesc, if_neg hb] at hx
      rcases List.mem_cons.mp hx with rfl | hx
      · exact Or.inr (List.mem_cons_self x t)
      · rcases ih hx with rfl | hmem
        · exact Or.inl rfl
        · exact Or.inr (List.mem_cons_of_mem b hmem)

/-- `insertDesc` preserves descending sortedness. -/
theorem insertDesc_sorted (e : ScoreEntry) :
    ∀ s : List ScoreEntry, SortedDesc s → SortedDesc (insertDesc e s) := by
  intro s
  induction s with
  | nil => intro _; simp [insertDesc, SortedDesc]
  | cons b t ih =>
    intro h
    rw [SortedDesc, List.pairwise_cons] at h
    obtain ⟨hb, ht⟩ := h
    by_cases hbe : b.score < e.score
    · rw [insertDesc, if_pos hbe, SortedDesc, List.pairwise_cons]
      refine ⟨?_, List.Pairwise.cons hb ht⟩
      intro x hx
      rcases List.mem_cons.mp hx with rfl | hx
      · exact le_of_lt hbe
      · exact le_trans (hb x hx) (le_of_lt hbe)
    · rw [insertDesc, if_neg hbe, SortedDesc, List.pairwise_cons]
      refine ⟨?_, ih ht⟩
      intro x hx
      rcases mem_insertDesc x e t hx with rfl | hx
      · exact le_of_not_lt hbe
      · exact hb x hx

/-- The fold underlying `sortDesc` keeps the accumulator sorted. -/
theorem sortDesc_aux_sorted (l : List ScoreEntry) :
    ∀ acc : List ScoreEntry, SortedDesc acc →
      SortedDesc (List.foldl (fun acc e => insertDesc e acc) acc l) := by
  induction l with
  | nil => intro acc h; exact h
  | cons e rest ih =>
    intro acc h
    simp only [List.foldl_cons]
    exact ih (insertDesc e acc) (insertDesc_sorted e acc h)

/-- `sortDesc` sorts descending by score. -/
theorem sortDesc_sorted (l : List ScoreEntry) : SortedDesc (sortDesc l) :=
  sortDesc_aux_sorted l [] List.Pairwise.nil

/-- Inserting an entry no greater than every element appends it. -/
theorem insertDesc_append_last (e : ScoreEntry) :
    ∀ s : List ScoreEntry, (∀ b ∈ s, ¬ b.score < e.score) →
      insertDesc e s = s ++ [e] := by
  intro s
  induction s with
  | nil => intro _; rfl
  | cons b t ih =>
    intro h
    rw [insertDesc, if_neg (h b (List.mem_cons_self b t))]
    rw [ih (fun x hx => h x (List.mem_cons_of_mem b hx))]
    rfl

/-- `sortDesc` fixes sorted lists. -/
theorem sortDesc_id_of_sorted (s : List ScoreEntry) :
    SortedDesc s → sortDesc s = s := by
  induction s using List.reverseRecOn with
  | nil => intro _; rfl
  | append_singleton l e ih =>
    intro h
    have hl : SortedDesc l :=
      List.Pairwise.sublist (List.sublist_append_left l [e]) h
    rw [sortDesc_concat, ih hl]
    apply insertDesc_append_last
    intro b hb
    have hle : e.score ≤ b.score := by
      have := (List.pairwise_append.mp h).2.2 b hb e (List.mem_singleton_self e)
      exact this
    exact not_lt.mpr hle

/-- The leaderboard after any insertion sequence from the empty board is
the truncated stable descending sort of all inserted entries. -/
theorem leaderboard_fold (entries : List ScoreEntry) :
    List.foldl addToLeaderboard [] entries
      = (sortDesc entries).take MAX_LEADERBOARD_ENTRIES := by
  induction entries using List.reverseRecOn with
  | nil => rfl
  | append_singleton l e ih =>
    rw [List.foldl_append]
    simp only [List.foldl_cons, List.foldl_nil]
    rw [ih]
    show (sortDesc ((sortDesc l).take MAX_LEADERBOARD_ENTRIES ++ [e])).take
        MAX_LEADERBOARD_ENTRIES = _
    rw [sortDesc_concat,
      sortDesc_id_of_sorted _
        (List.Pairwise.sublist (List.take_sublist _ _) (sortDesc_sorted l)),
      take_insertDesc, ← sortDesc_concat]

/-- Claim C8: after any sequence of insertions starting from the empty
leaderboard, the board equals the stable descending sort of the inserted
entries (sorted descending by score, ties kept in insertion order)
truncated to the maximum length; in particular it is sorted descending and
never holds more than 10 entries. -/
theorem C8_leaderboard (entries : List ScoreEntry) :
    List.foldl addToLeaderboard [] entries
      = (sortDesc entries).take MAX_LEADERBOARD_ENTRIES ∧
    SortedDesc (List.foldl addToLeaderboard [] entries) ∧
    (List.foldl addToLeaderboard [] entries).length ≤ MAX_LEADERBOARD_ENTRIES := by
  refine ⟨leaderboard_fold entries, ?_, ?_⟩
  · rw [leaderboard_fold]
    exact List.Pairwise.sublist (List.take_sublist _ _) (sortDesc_sorted entries)
  · rw [leaderboard_fold]
    exact List.length_take_le _ _

-- ## ObjectPool

/-- Claim C6: from any pool state whose available list is non-empty (and
well formed: its back is not simultaneously in use), `acquire()` returns
the back of the available list, and an immediate `release()` of that
object restores the pool exactly — the same available list, in-use list,
owned objects and growth flag. -/
theorem C6_acquire_release (p : Pool) (l : List Nat) (a : Nat)
    (hav : p.mAvailable = l ++ [a]) (hin : a ∉ p.mInUse) :
    (acquire p).1 = some a ∧ release a (acquire p).2 = p := by
  have hlast : p.mAvailable.getLast? = some a := by
    rw [hav]
    exact List.getLast?_concat l
  constructor
  · rw [acquire, hlast]
  · rw [acquire, hlast]
    show release a
        { p with mAvailable := p.mAvailable.dropLast, mInUse := p.mInUse ++ [a] } = p
    have hmem : a ∈ p.mInUse ++ [a] :=
      List.mem_append_right _ (List.mem_singleton_self a)
    rw [release, if_pos hmem]
    have herase : (p.mInUse ++ [a]).erase a = p.mInUse := by
      rw [List.erase_append_right _ hin, List.erase_cons_head]
      simp
    have hdrop : p.mAvailable.dropLast ++ [a] = p.mAvailable := by
      rw [hav, List.dropLast_concat]
    simp only [herase, hdrop]

/-- Witness for C6 on a two-object pool with both objects available. -/
theorem C6_acquire_release_witness :
    (acquire ⟨[0, 1], [0, 1], [], false⟩).1 = some 1 ∧
    release 1 (acquire ⟨[0, 1], [0, 1], [], false⟩).2 = ⟨[0, 1], [0, 1], [], false⟩ :=
  C6_acquire_release ⟨[0, 1], [0, 1], [], false⟩ [0] 1 rfl (by decide)

/-- When growth is disallowed, no operation changes the owned objects or
the growth flag. -/
theorem poolStep_no_growth (p : Pool) (op : PoolOp) (hg : p.mAllowGrowth = false) :
    (poolStep p op).mPool = p.mPool ∧ (poolStep p op).mAllowGrowth = false := by
  cases op with
  | acquire =>
    show ((acquire p).2.mPool = p.mPool ∧ (acquire p).2.mAllowGrowth = false)
    rw [acquire]
    cases hl : p.mAvailable.getLast? with
    | none => simp [hg]
    | some obj => simp [hg]
  | release obj =>
    by_cases h : obj ∈ p.mInUse <;> simp [poolStep, release, h, hg]
  | releaseAll => exact ⟨rfl, hg⟩

/-- `mPool` is preserved along any operation sequence without growth. -/
theorem runPool_no_growth (ops : List PoolOp) : ∀ p : Pool,
    p.mAllowGrowth = false → (runPool p ops).mPool = p.mPool := by
  induction ops with
  | nil => intro p _; rfl
  | cons op rest ih =>
    intro p hg
    simp only [runPool, List.foldl_cons]
    obtain ⟨h1, h2⟩ := poolStep_no_growth p op hg
    rw [show (rest.foldl poolStep (poolStep p op)) = runPool (poolStep p op) rest from rfl,
      ih (poolStep p op) h2, h1]

/-- Claim C7: with `allowGrowth = false`, `acquire()` on an exhausted pool
signals exhaustion by returning no object (`nullptr`) and leaves the pool
state unchanged; and a pool constructed with capacity `N` and
`allowGrowth = false` still owns exactly `N` objects after any sequence of
acquire, release and releaseAll calls. -/
theorem C7_no_growth (q : Pool) (poolSize : Nat) (ops : List PoolOp)
    (hg : q.mAllowGrowth = false) (hempty : q.mAvailable = []) :
    acquire q = (none, q) ∧
    (runPool (mkPool poolSize false) ops).mPool.length = poolSize := by
  constructor
  · rw [acquire, hempty]
    simp [hg]
  · rw [runPool_no_growth ops (mkPool poolSize false) rfl]
    simp [mkPool]

/-- Witness for C7: an exhausted zero-capacity pool, and a two-object pool
driven through over-acquisition, release and releaseAll. -/
theorem C7_no_growth_witness :
    acquire (mkPool 0 false) = (none, mkPool 0 false) ∧
    (runPool (mkPool 2 false)
      [PoolOp.acquire, PoolOp.acquire, PoolOp.acquire,
        PoolOp.release 1, PoolOp.releaseAll]).mPool.length = 2 :=
  C7_no_growth (mkPool 0 false) 2
    [PoolOp.acquire, PoolOp.acquire, PoolOp.acquire,
      PoolOp.release 1, PoolOp.releaseAll] rfl rfl

-- ## Enemy variants

/-- Claim C5: the three numeric traits (speed, health-cost-if-missed,
point-value-if-hit) are set by the constructor to the table values —
Normal (200 = baseline, 1, 1), Fast (1.75 x 200, 1, 2),
Tank (0.6 x 200, 2, 3), Bonus (1.25 x 200, 0, 5) — and no mutating
operation (`update` of any variant, `setActive`, `setPosition`) changes
any of them. -/
theorem C5_enemy_traits (px py qx qy dt : Rat) (sine : Rat → Rat)
    (e : Enemy) (b : Bool) :
    Enemy.traits (Enemy.create EnemyType.NORMAL px py) = (200, 1, 1) ∧
    Enemy.traits (Enemy.create EnemyType.FAST px py) = ((7 / 4) * 200, 1, 2) ∧
    Enemy.traits (Enemy.create EnemyType.TANK px py) = ((3 / 5) * 200, 2, 3) ∧
    Enemy.traits (Enemy.create EnemyType.BONUS px py) = ((5 / 4) * 200, 0, 5) ∧
    Enemy.traits (Enemy.update sine dt e) = Enemy.traits e ∧
    Enemy.traits (Enemy.setActive b e) = Enemy.traits e ∧
    Enemy.traits (Enemy.setPosition qx qy e) = Enemy.traits e := by
  refine ⟨rfl, ?_, ?_, ?_, ?_, rfl, rfl⟩
  · show ((350 : Rat), (1 : Int), (2 : Int)) = ((7 / 4) * 200, 1, 2)
    norm_num
  · show ((120 : Rat), (2 : Int), (3 : Int)) = ((3 / 5) * 200, 2, 3)
    norm_num
  · show ((250 : Rat), (0 : Int), (5 : Int)) = ((5 / 4) * 200, 0, 5)
    norm_num
  · have h : (Enemy.update sine dt e).mSpeed = e.mSpeed ∧
        (Enemy.update sine dt e).mHealthValue = e.mHealthValue ∧
        (Enemy.update sine dt e).mPointValue = e.mPointValue := by
      cases htype : e.mType <;> simp only [Enemy.update, htype] <;>
        (try split_ifs) <;> simp
    simp [Enemy.traits, h.1, h.2.1, h.2.2]

-- ## Particle

/-- Claim C9 counterexample: a fresh particle with a one-second maximum
lifetime updated by half a second carries the stored 8-bit alpha 127,
while the claimed exact value `255 * (1 - elapsed / maxLifetime)` is
127.5 — also after clamping to `[0, 255]` — so the stored alpha does not
equal it. -/
theorem C9_alpha_counterexample :
    (Particle.update (1 / 2) sampleParticle).lifetime = 1 / 2 ∧
    (Particle.update (1 / 2) sampleParticle).fillColor.a = 127 ∧
    ¬ ((127 : Rat) = 255 * (1 - (1 / 2) / sampleParticle.maxLifetime)) ∧
    ¬ ((127 : Rat)
        = min 255 (max 0 (255 * (1 - (1 / 2) / sampleParticle.maxLifetime)))) := by
  refine ⟨?_, ?_, ?_, ?_⟩
  · norm_num [Particle.update, sampleParticle]
  · norm_num [Particle.update, sampleParticle, u8ofFloat, floatToInt_of_nonneg]
    decide
  · norm_num [sampleParticle]
  · norm_num [sampleParticle]

/-- Claim C9 (amended): for an active particle, an update leaves it active
exactly when the new elapsed lifetime is still below the maximum; in that
case the stored alpha is the 8-bit TRUNCATION of
`255 * (1 - elapsed / maxLifetime)` (a value already inside `[0, 255]`),
not that exact value; and the first update at which the elapsed lifetime
reaches the maximum deactivates the particle without touching its
colour. -/
theorem C9_alpha_truncated (p : Particle) (dt : Rat) (hact : p.active = true) :
    ((Particle.update dt p).active = true ↔ p.lifetime + dt < p.maxLifetime) ∧
    (p.lifetime + dt < p.maxLifetime →
      (Particle.update dt p).fillColor.a
          = u8ofFloat (255 * (1 - (p.lifetime + dt) / p.maxLifetime)) ∧
      (Particle.update dt p).lifetime = p.lifetime + dt) ∧
    (p.maxLifetime ≤ p.lifetime + dt →
      (Particle.update dt p).active = false ∧
      (Particle.update dt p).fillColor = p.fillColor ∧
      (Particle.update dt p).lifetime = p.lifetime + dt) := by
  by_cases hle : p.maxLifetime ≤ p.lifetime + dt
  · simp [Particle.update, hact, hle, not_lt.mpr hle]
  · have hlt : p.lifetime + dt < p.maxLifetime := lt_of_not_ge hle
    simp [Particle.update, hact, hle, hlt]

/-- Witness for the amended C9: `sampleParticle` updated by a quarter
second stays active with alpha `trunc(255 * 3/4) = 191`; the deactivation
branch holds vacuously there. -/
theorem C9_alpha_truncated_witness :
    ((Particle.update (1 / 4) sampleParticle).active = true
        ↔ sampleParticle.lifetime + 1 / 4 < sampleParticle.maxLifetime) ∧
    (sampleParticle.lifetime + 1 / 4 < sampleParticle.maxLifetime →
      (Particle.update (1 / 4) sampleParticle).fillColor.a
          = u8ofFloat (255 * (1 - (sampleParticle.lifetime + 1 / 4) / sampleParticle.maxLifetime)) ∧
      (Particle.update (1 / 4) sampleParticle).lifetime = sampleParticle.lifetime + 1 / 4) ∧
    (sampleParticle.maxLifetime ≤ sampleParticle.lifetime + 1 / 4 →
      (Particle.update (1 / 4) sampleParticle).active = false ∧
      (Particle.update (1 / 4) sampleParticle).fillColor = sampleParticle.fillColor ∧
      (Particle.update (1 / 4) sampleParticle).lifetime = sampleParticle.lifetime + 1 / 4) :=
  C9_alpha_truncated sampleParticle (1 / 4) rfl

-- ## Frame loop: miss sweep and click resolution

/-- Claim C4, evaluated at the failing input (code bug): two enemies at
`y = 900` both cross the bottom edge (1000) in a `dt = 1` frame.  The
`Game::updateEnemies` sweep (forward-indexed erase without decrement)
removes only the first and decrements health once — the second enemy
survives the frame unmoved at `y = 900` — while the `PlayingState` sweep
with the index decrement removes both and decrements health twice, as the
claim requires. -/
theorem C4_miss_sweep_eval :
    gameMissSweep 1 1000 [enemyA, enemyB] 10 = ([enemyB], 9) ∧
    playingMissSweep 1 1000 [enemyA, enemyB] 10 false = ([], 8, false) ∧
    enemyB.posY = 900 := by
  refine ⟨?_, ?_, rfl⟩
  · norm_num [gameMissSweep, enemyA, enemyB, spawnRect, RectangleShape.move, mGravity]
  · norm_num [playingMissSweep, enemyA, enemyB, spawnRect, RectangleShape.move, mGravity]

/-- The click loop erases exactly the first enemy whose bounds contain the
pointer. -/
theorem clickLoop_first_hit (mx my : Rat) (e : RectangleShape) (r : List RectangleShape) :
    ∀ l : List RectangleShape, (∀ x ∈ l, ¬ x.containsPoint mx my) →
      e.containsPoint mx my →
      clickLoop mx my (l ++ e :: r) = some (l ++ r) := by
  intro l
  induction l with
  | nil =>
    intro _ he
    simp only [List.nil_append, clickLoop, if_pos he]
  | cons a t ih =>
    intro hmiss he
    have ha : ¬ a.containsPoint mx my := hmiss a (List.mem_cons_self a t)
    simp only [List.cons_append, clickLoop, if_neg ha, List.append_eq]
    rw [ih (fun x hx => hmiss x (List.mem_cons_of_mem a hx)) he]

/-- Claim C3 counterexample: the multiplier 1.5 is reachable in the
program through the public `ScoreManager` interface (four consecutive
hits), the pointer lies inside the single live enemy, and the click
resolution awards exactly 1 point — not
`round(pointValue * currentMultiplier) = round(1 * 1.5) = 2` as the claim
states (the handlers never consult a point value or the score manager). -/
theorem C3_flat_award_counterexample :
    (run init [Op.addPoints 1, Op.addPoints 1, Op.addPoints 1,
      Op.addPoints 1]).mComboMultiplier = 3 / 2 ∧
    (spawnRect 0 0).containsPoint 10 10 ∧
    (handleClick true 10 10 clickExState).mEnemies = [] ∧
    (handleClick true 10 10 clickExState).mPoints = clickExState.mPoints + 1 ∧
    round ((1 : Rat) * (3 / 2)) = 2 ∧
    clickExState.mPoints + 1 ≠ clickExState.mPoints + 2 := by
  refine ⟨?_, ?_, ?_, ?_, ?_, by decide⟩
  · show (addPoints 1 (addPoints 1 (addPoints 1 (addPoints 1 init)))).mComboMultiplier = 3 / 2
    have c3 : (addPoints 1 (addPoints 1 (addPoints 1 init))).mComboCount = 3 := rfl
    rw [addPoints_mult_eq, c3]
    norm_num [COMBO_THRESHOLD, BASE_MULTIPLIER, MULTIPLIER_INCREMENT]
  · norm_num [RectangleShape.containsPoint, spawnRect]
  · norm_num [handleClick, clickExState, clickLoop, RectangleShape.containsPoint, spawnRect]
  · norm_num [handleClick, clickExState, clickLoop, RectangleShape.containsPoint, spawnRect]
  · norm_num [round_eq]

/-- Claim C3 (amended): when the left button is newly pressed and the
pointer lies inside the bounds of at least one live enemy, the click
resolution removes exactly one enemy — the first match in spawn order —
and awards a flat 1 point and 1 health; the per-variant point value and
the combo multiplier play no part (the score manager is never invoked by
the click path). -/
theorem C3_first_match_flat_award (s : PlayingState) (mx my : Rat)
    (l r : List RectangleShape) (e : RectangleShape)
    (hsplit : s.mEnemies = l ++ e :: r)
    (hmiss : ∀ x ∈ l, ¬ x.containsPoint mx my)
    (hhit : e.containsPoint mx my)
    (hheld : s.mMouseHeld = false) :
    handleClick true mx my s
      = { s with mMouseHeld := true
                 mEnemies := l ++ r
                 mHealth := s.mHealth + 1
                 mPoints := s.mPoints + 1 } := by
  have hc := clickLoop_first_hit mx my e r l hmiss hhit
  simp [handleClick, hheld, hsplit, hc]

/-- Witness for the amended C3: the pointer at `(10, 10)` inside the sole
enemy of `clickExState`. -/
theorem C3_first_match_flat_award_witness :
    handleClick true 10 10 clickExState
      = { clickExState with mMouseHeld := true
                            mEnemies := [] ++ []
                            mHealth := clickExState.mHealth + 1
                            mPoints := clickExState.mPoints + 1 } :=
  C3_first_match_flat_award clickExState 10 10 [] [] (spawnRect 0 0) rfl
    (by intro x hx; cases hx)
    (by norm_num [RectangleShape.containsPoint, spawnRect]) rfl

/-- Claim C10: on every frame in which the left button is newly pressed
and the click loop finds a hit, the handler increments health by 1
(alongside the 1 point) — for every current health value, with no upper
bound or clamp. -/
theorem C10_hit_increments_health (s : PlayingState) (mx my : Rat)
    (es : List RectangleShape)
    (hheld : s.mMouseHeld = false)
    (hhit : clickLoop mx my s.mEnemies = some es) :
    (handleClick true mx my s).mHealth = s.mHealth + 1 ∧
    (handleClick true mx my s).mPoints = s.mPoints + 1 := by
  simp [handleClick, hheld, hhit]

/-- Witness for C10 at `clickExState` (health 10 before, 11 after). -/
theorem C10_hit_increments_health_witness :
    (handleClick true 10 10 clickExState).mHealth = clickExState.mHealth + 1 ∧
    (handleClick true 10 10 clickExState).mPoints = clickExState.mPoints + 1 :=
  C10_hit_increments_health clickExState 10 10 [] rfl
    (by norm_num [clickLoop, clickExState, RectangleShape.containsPoint, spawnRect])

end FallingFury
